import Mathlib

/-!
Verification of the early-stopping training controller of
`BackPropagation.py` (function `test_mlp`), together with the error-rate
operation `LogisticRegression.errors` and the dataset loader `load_data`.

The numerical engine (symbolic gradients, parameter tensors) is abstracted:
the mean validation error and the mean test error that the compiled Theano
functions produce at global iteration `t` are modelled as oracles
`val t : ℚ` and `tst t : ℚ`.  All control flow of the training loop —
patience bookkeeping, best-model tracking, the validation schedule, early
stopping — is embedded exactly as written in the source.

`numpy.inf` (the initial `best_validation_loss`) is modelled as `none` in
an `Option ℚ`, with the comparisons `x < inf` and `x < inf * 0.995`
both true for every rational `x`, matching IEEE semantics for finite `x`.
-/

namespace BackPropagation

/-- Configuration of `test_mlp`: the epoch budget `num_epochs`, the
minibatch size `batch_size`, and the sizes of the three dataset splits as
loaded by `load_data`. -/
structure MlpConfig where
  num_epochs : ℕ
  batch_size : ℕ
  train_size : ℕ
  valid_size : ℕ
  test_size : ℕ
deriving DecidableEq

/-- Source line 316: `patience = 100`. -/
def patience_init : ℕ := 100

/-- Source line 317: `patience_increase = 2`. -/
def patience_increase : ℕ := 2

/-- Source line 318: `improvement_threshold = 0.995`. -/
def improvement_threshold : ℚ := 199 / 200

/-- Source line 255: `num_train_batches = train shape[0] // batch_size`. -/
def num_train_batches (c : MlpConfig) : ℕ := c.train_size / c.batch_size

/-- Source line 256: `num_valid_batches = valid shape[0] // batch_size`. -/
def num_valid_batches (c : MlpConfig) : ℕ := c.valid_size / c.batch_size

/-- Source line 257: `num_test_batches = test shape[0] // batch_size`. -/
def num_test_batches (c : MlpConfig) : ℕ := c.test_size / c.batch_size

/-- Source line 319: `validation_frequency = min(num_train_batches, patience // 2)`,
evaluated while `patience` still holds its initial value 100. -/
def validation_frequency (c : MlpConfig) : ℕ :=
  min (num_train_batches c) (patience_init / 2)

/-- Source line 267: `random_number_generator = numpy.random.RandomState(1234)` —
the seed of the weight initialisation is the fixed literal 1234. -/
def mlp_random_seed : ℕ := 1234

/-- The mutable state of the training loop of `test_mlp` (source lines
316–361): current epoch, the last computed `iteration` (source line 335,
reified with initial value −1 before any minibatch has been processed),
`patience`, `best_validation_loss` (`none` is `numpy.inf`),
`best_iteration`, `test_score` and the `done_looping` flag. -/
structure LoopState where
  epoch : ℕ
  global_iteration : ℤ
  patience : ℕ
  best_validation_loss : Option ℚ
  best_iteration : ℕ
  test_score : ℚ
  done_looping : Bool
deriving DecidableEq

/-- Source lines 321–327: the state just before the `while` loop. -/
def initState : LoopState :=
  { epoch := 0, global_iteration := -1, patience := patience_init,
    best_validation_loss := none, best_iteration := 0, test_score := 0,
    done_looping := false }

/-- The comparison `this_validation_loss < best_validation_loss` of source
line 346, where `best_validation_loss` may be `numpy.inf` (`none`). -/
def ltInf (c : ℚ) (b : Option ℚ) : Bool :=
  match b with
  | none => true
  | some v => decide (c < v)

/-- The comparison `this_validation_loss < best_validation_loss *
improvement_threshold` of source line 348, where `best_validation_loss`
may be `numpy.inf` (`none`, and `inf * 0.995 = inf`). -/
def ltInfThresh (c : ℚ) (b : Option ℚ) : Bool :=
  match b with
  | none => true
  | some v => decide (c < v * improvement_threshold)

/-- Source lines 339–355: the body of one validation check at global
iteration `t`.  `val t` is the mean validation error computed at line 340
and `tst t` the mean test error computed at line 355; both abstract the
numerical engine. -/
def validationStep (val tst : ℕ → ℚ) (s : LoopState) (t : ℕ) : LoopState :=
  let this_validation_loss := val t
  if ltInf this_validation_loss s.best_validation_loss then
    { s with
      patience := if ltInfThresh this_validation_loss s.best_validation_loss
                  then max s.patience (t * patience_increase)
                  else s.patience,
      best_validation_loss := some this_validation_loss,
      best_iteration := t,
      test_score := tst t }
  else s

/-- Source line 337: whether a validation check happens at global
iteration `t`, i.e. `(iteration + 1) % validation_frequency == 0`. -/
def validationChecked (c : MlpConfig) (t : ℕ) : Bool :=
  (t + 1) % validation_frequency c == 0

/-- Source lines 333–361: the body of the inner `for` loop for minibatch
index `mb` of epoch `epoch`: compute `iteration`, run the validation
check when due, then test `patience <= iteration` and set `done_looping`
(the `break` is realised by `runBatches` skipping once the flag is
set). -/
def innerStep (c : MlpConfig) (val tst : ℕ → ℚ) (epoch mb : ℕ)
    (s : LoopState) : LoopState :=
  let iteration := (epoch - 1) * num_train_batches c + mb
  let s1 := { (if validationChecked c iteration
               then validationStep val tst s iteration else s)
              with global_iteration := (iteration : ℤ) }
  if s1.patience ≤ iteration then { s1 with done_looping := true } else s1

/-- Source line 331: `for minibatch_index in range(num_train_batches)`,
starting at minibatch index `mb` with `r` indices remaining; the guard on
`done_looping` realises the `break` of line 361. -/
def runBatches (c : MlpConfig) (val tst : ℕ → ℚ) (epoch : ℕ) :
    ℕ → ℕ → LoopState → LoopState
  | _, 0, s => s
  | mb, r + 1, s =>
    if s.done_looping then s
    else runBatches c val tst epoch (mb + 1) r (innerStep c val tst epoch mb s)

/-- Source lines 329–361: the `while (epoch < num_epochs) and (not
done_looping)` loop, with the remaining epoch budget as fuel — calling it
with fuel `n` on a state with `epoch = num_epochs - n` is exactly the
source loop, so the loop terminates after at most `num_epochs` passes. -/
def runEpochs (c : MlpConfig) (val tst : ℕ → ℚ) :
    ℕ → LoopState → LoopState
  | 0, s => s
  | n + 1, s =>
    if s.done_looping then s
    else runEpochs c val tst n
      (runBatches c val tst (s.epoch + 1) 0 (num_train_batches c)
        { s with epoch := s.epoch + 1 })

/-- The whole training loop of `test_mlp`, from `initState` with the full
epoch budget. -/
def test_mlp_loop (c : MlpConfig) (val tst : ℕ → ℚ) : LoopState :=
  runEpochs c val tst c.num_epochs initState

/-- Source line 367: `test_mlp` returns `(best_validation_loss, test_score)`. -/
def test_mlp_result (c : MlpConfig) (val tst : ℕ → ℚ) : Option ℚ × ℚ :=
  ((test_mlp_loop c val tst).best_validation_loss,
   (test_mlp_loop c val tst).test_score)

/-- The pointwise order on best-validation losses, where `none` is
`numpy.inf`: `bestLE a b` says `a ≤ b`. -/
def bestLE : Option ℚ → Option ℚ → Prop
  | _, none => True
  | none, some _ => False
  | some a, some b => a ≤ b

instance : DecidablePred fun p : Option ℚ × Option ℚ => bestLE p.1 p.2 := by
  rintro ⟨a | a, b | b⟩ <;> simp [bestLE] <;> infer_instance

/-- A label tensor as seen by `LogisticRegression.errors`: its number of
dimensions, its dtype string (numpy dtype names such as `int32` or
`float64`), and its label values. -/
structure TensorVector where
  ndim : ℕ
  dtype : String
  data : List ℤ
deriving DecidableEq

/-- The binary outcomes of `LogisticRegression.errors` (source lines
74–93): the `TypeError` of line 85, the `NotImplementedError` of line 93,
or the mean zero-one loss of line 91. -/
inductive ErrorsResult where
  | typeError
  | notImplementedError
  | ok (v : ℚ)
deriving DecidableEq

/-- Source line 42: `y_prediction = T.argmax(prob_y_given_x, axis=1)` is a
one-dimensional tensor, so `self.y_prediction.ndim = 1`. -/
def y_prediction_ndim : ℕ := 1

/-- Source line 91: `T.mean(T.neq(y_prediction, y))` — the fraction of
positions where prediction and label differ. -/
def zeroOneLossMean (pred labels : List ℤ) : ℚ :=
  ((((pred.zip labels).filter fun p => decide (p.1 ≠ p.2)).length : ℚ)
    / (pred.length : ℚ))

/-- Source line 88: the test `y.dtype.startswith('int')`, i.e. the first
three characters of the dtype name are `int` (written on the character
list so that it evaluates inside the kernel). -/
def dtypeStartsWithInt (dtype : String) : Bool :=
  dtype.data.take 3 == "int".data

/-- Source lines 74–93, `LogisticRegression.errors` (also `MLP.errors`,
which is the same bound method, source line 174): raise `TypeError` when
`y.ndim` differs from `y_prediction.ndim`, return the mean zero-one loss
when the dtype starts with `int`, and raise `NotImplementedError`
otherwise. -/
def errors (y_prediction : List ℤ) (y : TensorVector) : ErrorsResult :=
  if y.ndim ≠ y_prediction_ndim then .typeError
  else if dtypeStartsWithInt y.dtype then
    .ok (zeroOneLossMean y_prediction y.data)
  else .notImplementedError

/-- One raw dataset split `(data_x, data_y)` as unpickled in `load_data`. -/
structure RawSplit where
  xs : List (List ℚ)
  ys : List ℤ
deriving DecidableEq

/-- Source lines 216–224, `shared_dataset`: truncate both the feature
matrix and the label vector to the first `num_ex` rows. -/
def shared_dataset (d : RawSplit) (num_ex : ℕ) : RawSplit :=
  { xs := d.xs.take num_ex, ys := d.ys.take num_ex }

/-- Source lines 226–231, the tail of `load_data`: the test and
validation splits use the default `num_ex=10000`, only the training split
is truncated to the caller's `num_examples`; the returned order is
`(train, valid, test)`. -/
def load_data (train_set valid_set test_set : RawSplit) (num_examples : ℕ) :
    RawSplit × RawSplit × RawSplit :=
  (shared_dataset train_set num_examples,
   shared_dataset valid_set 10000,
   shared_dataset test_set 10000)

/-! ### Lemmas about one validation check -/

theorem validationStep_patience (val tst : ℕ → ℚ) (s : LoopState) (t : ℕ) :
    (validationStep val tst s t).patience =
      if ltInf (val t) s.best_validation_loss
          && ltInfThresh (val t) s.best_validation_loss
      then max s.patience (t * patience_increase)
      else s.patience := by
  unfold validationStep
  cases h1 : ltInf (val t) s.best_validation_loss <;>
    cases h2 : ltInfThresh (val t) s.best_validation_loss <;>
      simp [h1, h2]

theorem validationStep_best (val tst : ℕ → ℚ) (s : LoopState) (t : ℕ) :
    (validationStep val tst s t).best_validation_loss =
      if ltInf (val t) s.best_validation_loss then some (val t)
      else s.best_validation_loss := by
  unfold validationStep
  cases h1 : ltInf (val t) s.best_validation_loss <;> simp [h1]

theorem validationStep_best_iteration (val tst : ℕ → ℚ) (s : LoopState) (t : ℕ) :
    (validationStep val tst s t).best_iteration =
      if ltInf (val t) s.best_validation_loss then t
      else s.best_iteration := by
  unfold validationStep
  cases h1 : ltInf (val t) s.best_validation_loss <;> simp [h1]

theorem validationStep_test_score (val tst : ℕ → ℚ) (s : LoopState) (t : ℕ) :
    (validationStep val tst s t).test_score =
      if ltInf (val t) s.best_validation_loss then tst t
      else s.test_score := by
  unfold validationStep
  cases h1 : ltInf (val t) s.best_validation_loss <;> simp [h1]

theorem validationStep_epoch (val tst : ℕ → ℚ) (s : LoopState) (t : ℕ) :
    (validationStep val tst s t).epoch = s.epoch := by
  unfold validationStep
  cases h1 : ltInf (val t) s.best_validation_loss <;> simp [h1]

theorem validationStep_done (val tst : ℕ → ℚ) (s : LoopState) (t : ℕ) :
    (validationStep val tst s t).done_looping = s.done_looping := by
  unfold validationStep
  cases h1 : ltInf (val t) s.best_validation_loss <;> simp [h1]

theorem validationStep_gi (val tst : ℕ → ℚ) (s : LoopState) (t : ℕ) :
    (validationStep val tst s t).global_iteration = s.global_iteration := by
  unfold validationStep
  cases h1 : ltInf (val t) s.best_validation_loss <;> simp [h1]

theorem validationStep_patience_mono (val tst : ℕ → ℚ) (s : LoopState) (t : ℕ) :
    s.patience ≤ (validationStep val tst s t).patience := by
  rw [validationStep_patience]
  split
  · exact le_max_left _ _
  · exact le_rfl

/-! ### The order on best-validation losses -/

theorem bestLE_refl (a : Option ℚ) : bestLE a a := by
  cases a <;> simp [bestLE]

theorem bestLE_trans {a b c : Option ℚ} (h1 : bestLE a b) (h2 : bestLE b c) :
    bestLE a c := by
  cases a <;> cases b <;> cases c <;> simp_all [bestLE]
  exact le_trans h1 h2

theorem ltInf_bestLE {cv : ℚ} {b : Option ℚ} (h : ltInf cv b = true) :
    bestLE (some cv) b := by
  cases b with
  | none => simp [bestLE]
  | some v =>
    simp only [ltInf, decide_eq_true_eq] at h
    simpa [bestLE] using le_of_lt h

theorem validationStep_bestLE (val tst : ℕ → ℚ) (s : LoopState) (t : ℕ) :
    bestLE (validationStep val tst s t).best_validation_loss
      s.best_validation_loss := by
  rw [validationStep_best]
  split
  · exact ltInf_bestLE (by assumption)
  · exact bestLE_refl _

theorem validationStep_best_ne_none (val tst : ℕ → ℚ) (s : LoopState) (t : ℕ) :
    (validationStep val tst s t).best_validation_loss = none →
      s.best_validation_loss = none := by
  rw [validationStep_best]
  split
  · intro h; exact absurd h (by simp)
  · exact id

/-! ### Lemmas about one inner-loop step -/

theorem innerStep_epoch (c : MlpConfig) (val tst : ℕ → ℚ) (epoch mb : ℕ)
    (s : LoopState) :
    (innerStep c val tst epoch mb s).epoch = s.epoch := by
  unfold innerStep
  dsimp only
  split <;> split <;> simp [validationStep_epoch]

theorem innerStep_gi (c : MlpConfig) (val tst : ℕ → ℚ) (epoch mb : ℕ)
    (s : LoopState) :
    (innerStep c val tst epoch mb s).global_iteration =
      ((epoch - 1) * num_train_batches c + mb : ℕ) := by
  unfold innerStep
  dsimp only
  split <;> split <;> simp

theorem innerStep_patience_mono (c : MlpConfig) (val tst : ℕ → ℚ)
    (epoch mb : ℕ) (s : LoopState) :
    s.patience ≤ (innerStep c val tst epoch mb s).patience := by
  unfold innerStep
  dsimp only
  split <;> split <;>
    simp [validationStep_patience_mono]

theorem innerStep_bestLE (c : MlpConfig) (val tst : ℕ → ℚ)
    (epoch mb : ℕ) (s : LoopState) :
    bestLE (innerStep c val tst epoch mb s).best_validation_loss
      s.best_validation_loss := by
  unfold innerStep
  dsimp only
  split <;> split <;>
    simp [validationStep_bestLE, bestLE_refl]

theorem innerStep_done_inv (c : MlpConfig) (val tst : ℕ → ℚ)
    (epoch mb : ℕ) (s : LoopState) :
    (innerStep c val tst epoch mb s).done_looping = true →
      s.done_looping = true ∨
        ((innerStep c val tst epoch mb s).patience : ℤ) ≤
          (innerStep c val tst epoch mb s).global_iteration := by
  unfold innerStep
  dsimp only
  by_cases hcheck :
      validationChecked c ((epoch - 1) * num_train_batches c + mb) = true
  · rw [if_pos hcheck]
    split
    · rename_i hpat
      intro _
      right
      simp only []
      exact_mod_cast hpat
    · intro hdone
      left
      rw [← validationStep_done val tst s ((epoch - 1) * num_train_batches c + mb)]
      exact hdone
  · rw [if_neg hcheck]
    split
    · rename_i hpat
      intro _
      right
      simp only []
      exact_mod_cast hpat
    · intro hdone
      left
      exact hdone

/-- The invariant that justifies the early-stopping condition: whenever
the `done_looping` flag is set, the last computed `iteration` has already
consumed the whole patience budget (source lines 359–360). -/
def DoneInv (s : LoopState) : Prop :=
  s.done_looping = true → (s.patience : ℤ) ≤ s.global_iteration

theorem innerStep_DoneInv (c : MlpConfig) (val tst : ℕ → ℚ)
    (epoch mb : ℕ) (s : LoopState) (hs : s.done_looping = false) :
    DoneInv (innerStep c val tst epoch mb s) := by
  intro hdone
  rcases innerStep_done_inv c val tst epoch mb s hdone with h | h
  · rw [hs] at h
    exact absurd h (by simp)
  · exact h

/-! ### Lemmas about the inner minibatch loop -/

theorem runBatches_epoch (c : MlpConfig) (val tst : ℕ → ℚ) (epoch r : ℕ) :
    ∀ (mb : ℕ) (s : LoopState),
      (runBatches c val tst epoch mb r s).epoch = s.epoch := by
  induction r with
  | zero => intro mb s; rfl
  | succ r ih =>
    intro mb s
    unfold runBatches
    split
    · rfl
    · rw [ih, innerStep_epoch]

theorem runBatches_patience_mono (c : MlpConfig) (val tst : ℕ → ℚ)
    (epoch r : ℕ) : ∀ (mb : ℕ) (s : LoopState),
      s.patience ≤ (runBatches c val tst epoch mb r s).patience := by
  induction r with
  | zero => intro mb s; exact le_rfl
  | succ r ih =>
    intro mb s
    unfold runBatches
    split
    · exact le_rfl
    · exact le_trans (innerStep_patience_mono c val tst epoch mb s) (ih _ _)

theorem runBatches_bestLE (c : MlpConfig) (val tst : ℕ → ℚ)
    (epoch r : ℕ) : ∀ (mb : ℕ) (s : LoopState),
      bestLE (runBatches c val tst epoch mb r s).best_validation_loss
        s.best_validation_loss := by
  induction r with
  | zero => intro mb s; exact bestLE_refl _
  | succ r ih =>
    intro mb s
    unfold runBatches
    split
    · exact bestLE_refl _
    · exact bestLE_trans (ih _ _) (innerStep_bestLE c val tst epoch mb s)

theorem runBatches_DoneInv (c : MlpConfig) (val tst : ℕ → ℚ)
    (epoch r : ℕ) : ∀ (mb : ℕ) (s : LoopState), DoneInv s →
      DoneInv (runBatches c val tst epoch mb r s) := by
  induction r with
  | zero => intro mb s hs; exact hs
  | succ r ih =>
    intro mb s hs
    unfold runBatches
    split
    · exact hs
    · rename_i hnd
      exact ih _ _ (innerStep_DoneInv c val tst epoch mb s
        (by simpa using hnd))

/-! ### Lemmas about the outer epoch loop -/

theorem runEpochs_patience_mono (c : MlpConfig) (val tst : ℕ → ℚ) (n : ℕ) :
    ∀ (s : LoopState), s.patience ≤ (runEpochs c val tst n s).patience := by
  induction n with
  | zero => intro s; exact le_rfl
  | succ n ih =>
    intro s
    unfold runEpochs
    split
    · exact le_rfl
    · exact le_trans
        (runBatches_patience_mono c val tst (s.epoch + 1)
          (num_train_batches c) 0 { s with epoch := s.epoch + 1 })
        (ih _)

theorem runEpochs_bestLE (c : MlpConfig) (val tst : ℕ → ℚ) (n : ℕ) :
    ∀ (s : LoopState),
      bestLE (runEpochs c val tst n s).best_validation_loss
        s.best_validation_loss := by
  induction n with
  | zero => intro s; exact bestLE_refl _
  | succ n ih =>
    intro s
    unfold runEpochs
    split
    · exact bestLE_refl _
    · exact bestLE_trans (ih _)
        (runBatches_bestLE c val tst (s.epoch + 1)
          (num_train_batches c) 0 { s with epoch := s.epoch + 1 })

theorem runEpochs_DoneInv (c : MlpConfig) (val tst : ℕ → ℚ) (n : ℕ) :
    ∀ (s : LoopState), DoneInv s → DoneInv (runEpochs c val tst n s) := by
  induction n with
  | zero => intro s hs; exact hs
  | succ n ih =>
    intro s hs
    unfold runEpochs
    split
    · exact hs
    · exact ih _ (runBatches_DoneInv c val tst (s.epoch + 1)
        (num_train_batches c) 0 { s with epoch := s.epoch + 1 } hs)

theorem runEpochs_epoch_of_not_done (c : MlpConfig) (val tst : ℕ → ℚ)
    (n : ℕ) : ∀ (s : LoopState),
      (runEpochs c val tst n s).done_looping = false →
        (runEpochs c val tst n s).epoch = s.epoch + n := by
  induction n with
  | zero => intro s _; rfl
  | succ n ih =>
    intro s hnd
    rw [runEpochs] at hnd ⊢
    split at hnd
    · rename_i hd
      rw [hd] at hnd
      exact absurd hnd (by simp)
    · rename_i hd
      rw [if_neg hd, ih _ hnd, runBatches_epoch]
      dsimp only
      omega

/-! ### The best-model bookkeeping: test score matches best iteration -/

/-- Invariant: once some validation check has improved on `numpy.inf`,
`test_score` is the mean test error measured at `best_iteration` (source
lines 350–355 update the three fields together). -/
def TestInv (tst : ℕ → ℚ) (s : LoopState) : Prop :=
  s.best_validation_loss ≠ none → s.test_score = tst s.best_iteration

theorem validationStep_TestInv (val tst : ℕ → ℚ) (s : LoopState) (t : ℕ)
    (hs : TestInv tst s) : TestInv tst (validationStep val tst s t) := by
  intro hne
  rw [validationStep_test_score, validationStep_best_iteration]
  by_cases h : ltInf (val t) s.best_validation_loss = true
  · rw [if_pos h, if_pos h]
  · rw [if_neg h, if_neg h]
    apply hs
    rw [validationStep_best, if_neg h] at hne
    exact hne

theorem innerStep_TestInv (c : MlpConfig) (val tst : ℕ → ℚ)
    (epoch mb : ℕ) (s : LoopState) (hs : TestInv tst s) :
    TestInv tst (innerStep c val tst epoch mb s) := by
  unfold innerStep
  dsimp only
  by_cases hcheck :
      validationChecked c ((epoch - 1) * num_train_batches c + mb) = true
  · rw [if_pos hcheck]
    split
    · exact fun hne => validationStep_TestInv val tst s _ hs hne
    · exact fun hne => validationStep_TestInv val tst s _ hs hne
  · rw [if_neg hcheck]
    split
    · exact fun hne => hs hne
    · exact fun hne => hs hne

theorem runBatches_TestInv (c : MlpConfig) (val tst : ℕ → ℚ)
    (epoch r : ℕ) : ∀ (mb : ℕ) (s : LoopState), TestInv tst s →
      TestInv tst (runBatches c val tst epoch mb r s) := by
  induction r with
  | zero => intro mb s hs; exact hs
  | succ r ih =>
    intro mb s hs
    unfold runBatches
    split
    · exact hs
    · exact ih _ _ (innerStep_TestInv c val tst epoch mb s hs)

theorem runEpochs_TestInv (c : MlpConfig) (val tst : ℕ → ℚ) (n : ℕ) :
    ∀ (s : LoopState), TestInv tst s →
      TestInv tst (runEpochs c val tst n s) := by
  induction n with
  | zero => intro s hs; exact hs
  | succ n ih =>
    intro s hs
    unfold runEpochs
    split
    · exact hs
    · exact ih _ (runBatches_TestInv c val tst (s.epoch + 1)
        (num_train_batches c) 0 { s with epoch := s.epoch + 1 } hs)

/-! ### Noninterference: the test oracle never feeds back into control -/

/-- Forget the `test_score` field: two states agree after `eraseTestScore`
exactly when they agree on every control-relevant field. -/
def eraseTestScore (s : LoopState) : LoopState := { s with test_score := 0 }

theorem eraseTestScore_eq_iff {s s' : LoopState} :
    eraseTestScore s = eraseTestScore s' ↔
      s.epoch = s'.epoch ∧ s.global_iteration = s'.global_iteration ∧
      s.patience = s'.patience ∧
      s.best_validation_loss = s'.best_validation_loss ∧
      s.best_iteration = s'.best_iteration ∧
      s.done_looping = s'.done_looping := by
  cases s
  cases s'
  simp [eraseTestScore]

theorem validationStep_congr (val tst tst' : ℕ → ℚ) {s s' : LoopState}
    (t : ℕ) (h : eraseTestScore s = eraseTestScore s') :
    eraseTestScore (validationStep val tst s t) =
      eraseTestScore (validationStep val tst' s' t) := by
  rcases eraseTestScore_eq_iff.mp h with ⟨g1, g2, g3, g4, g5, g6⟩
  rw [eraseTestScore_eq_iff]
  rw [validationStep_epoch, validationStep_epoch, validationStep_gi,
    validationStep_gi, validationStep_patience, validationStep_patience,
    validationStep_best, validationStep_best, validationStep_best_iteration,
    validationStep_best_iteration, validationStep_done, validationStep_done]
  simp [g1, g2, g3, g4, g5, g6]

theorem innerStep_congr (c : MlpConfig) (val tst tst' : ℕ → ℚ)
    (epoch mb : ℕ) {s s' : LoopState}
    (h : eraseTestScore s = eraseTestScore s') :
    eraseTestScore (innerStep c val tst epoch mb s) =
      eraseTestScore (innerStep c val tst' epoch mb s') := by
  have hX : eraseTestScore
      (if validationChecked c ((epoch - 1) * num_train_batches c + mb) then
        validationStep val tst s ((epoch - 1) * num_train_batches c + mb)
      else s) =
      eraseTestScore
      (if validationChecked c ((epoch - 1) * num_train_batches c + mb) then
        validationStep val tst' s' ((epoch - 1) * num_train_batches c + mb)
      else s') := by
    by_cases hc :
        validationChecked c ((epoch - 1) * num_train_batches c + mb) = true
    · rw [if_pos hc, if_pos hc]
      exact validationStep_congr val tst tst' _ h
    · rw [if_neg hc, if_neg hc]
      exact h
  rcases eraseTestScore_eq_iff.mp hX with ⟨g1, g2, g3, g4, g5, g6⟩
  unfold innerStep
  dsimp only
  rw [eraseTestScore_eq_iff]
  by_cases hp :
      (if validationChecked c ((epoch - 1) * num_train_batches c + mb) then
        validationStep val tst s ((epoch - 1) * num_train_batches c + mb)
      else s).patience ≤ (epoch - 1) * num_train_batches c + mb
  · have hp2 := hp
    rw [g3] at hp2
    rw [if_pos hp, if_pos hp2]
    exact ⟨g1, rfl, g3, g4, g5, rfl⟩
  · have hp2 := hp
    rw [g3] at hp2
    rw [if_neg hp, if_neg hp2]
    exact ⟨g1, rfl, g3, g4, g5, g6⟩

theorem runBatches_congr (c : MlpConfig) (val tst tst' : ℕ → ℚ)
    (epoch r : ℕ) : ∀ (mb : ℕ) {s s' : LoopState},
      eraseTestScore s = eraseTestScore s' →
      eraseTestScore (runBatches c val tst epoch mb r s) =
        eraseTestScore (runBatches c val tst' epoch mb r s') := by
  induction r with
  | zero => intro mb s s' h; exact h
  | succ r ih =>
    intro mb s s' h
    have hd : s.done_looping = s'.done_looping :=
      (eraseTestScore_eq_iff.mp h).2.2.2.2.2
    unfold runBatches
    by_cases hdone : s.done_looping = true
    · rw [if_pos hdone, if_pos (hd ▸ hdone)]
      exact h
    · rw [if_neg hdone, if_neg (hd ▸ hdone)]
      exact ih (mb + 1) (innerStep_congr c val tst tst' epoch mb h)

theorem runEpochs_congr (c : MlpConfig) (val tst tst' : ℕ → ℚ) (n : ℕ) :
    ∀ {s s' : LoopState}, eraseTestScore s = eraseTestScore s' →
      eraseTestScore (runEpochs c val tst n s) =
        eraseTestScore (runEpochs c val tst' n s') := by
  induction n with
  | zero => intro s s' h; exact h
  | succ n ih =>
    intro s s' h
    rcases eraseTestScore_eq_iff.mp h with ⟨g1, g2, g3, g4, g5, g6⟩
    unfold runEpochs
    by_cases hdone : s.done_looping = true
    · rw [if_pos hdone, if_pos (g6 ▸ hdone)]
      exact h
    · rw [if_neg hdone, if_neg (g6 ▸ hdone), ← g1]
      exact ih (runBatches_congr c val tst tst' (s.epoch + 1)
        (num_train_batches c) 0
        (eraseTestScore_eq_iff.mpr ⟨rfl, g2, g3, g4, g5, g6⟩))

/-! ### The claims -/

/-- C1 (evidence of the code bug): with `batch_size = 20` and a training
split of only 10 samples, `num_train_batches = 0`, and `test_mlp` performs
no fail-fast configuration check: the loop silently runs all `num_epochs`
empty epochs and returns `(numpy.inf, 0.0)` — modelled `(none, 0)` — with
no error; the `% validation_frequency` expression is never evaluated
because the inner loop body never runs, so no division by zero occurs
either. -/
theorem C1_zero_batches_returns_silently (val tst : ℕ → ℚ) :
    test_mlp_result ⟨3, 20, 10, 10000, 10000⟩ val tst = (none, 0) ∧
      num_train_batches ⟨3, 20, 10, 10000, 10000⟩ = 0 ∧
      (test_mlp_loop ⟨3, 20, 10, 10000, 10000⟩ val tst).epoch = 3 := by
  exact ⟨rfl, rfl, rfl⟩

/-- C2: for every configuration with `max_epochs ≥ 1` and at least one
training batch, the training loop terminates (`test_mlp_loop` is a total
function whose fuel is exactly the epoch budget of the `while` loop), and
at termination either `global_iteration + 1 > patience` (the
early-stopping trigger of source lines 359–361, which breaks out of the
current epoch) or the epoch counter has exhausted `num_epochs`. -/
theorem C2_terminates_by_patience_or_epoch_budget (c : MlpConfig)
    (val tst : ℕ → ℚ) (h1 : 1 ≤ c.num_epochs)
    (h2 : 1 ≤ num_train_batches c) :
    ((test_mlp_loop c val tst).patience : ℤ) <
        (test_mlp_loop c val tst).global_iteration + 1 ∨
      (test_mlp_loop c val tst).epoch = c.num_epochs := by
  have hinv : DoneInv (test_mlp_loop c val tst) :=
    runEpochs_DoneInv c val tst c.num_epochs initState
      (fun h => absurd h (by simp [initState]))
  cases hdone : (test_mlp_loop c val tst).done_looping with
  | true =>
    left
    have hle := hinv hdone
    omega
  | false =>
    right
    have hep := runEpochs_epoch_of_not_done c val tst c.num_epochs
      initState hdone
    simpa [initState] using hep

/-- Witness for C2: a concrete configuration with one epoch and one
training batch reaches the epoch-budget branch. -/
theorem C2_terminates_witness :
    ((test_mlp_loop ⟨1, 1, 1, 1, 1⟩ (fun _ => 0) (fun _ => 0)).patience : ℤ) <
        (test_mlp_loop ⟨1, 1, 1, 1, 1⟩ (fun _ => 0)
          (fun _ => 0)).global_iteration + 1 ∨
      (test_mlp_loop ⟨1, 1, 1, 1, 1⟩ (fun _ => 0) (fun _ => 0)).epoch =
        (⟨1, 1, 1, 1, 1⟩ : MlpConfig).num_epochs :=
  C2_terminates_by_patience_or_epoch_budget ⟨1, 1, 1, 1, 1⟩
    (fun _ => 0) (fun _ => 0) (by decide) (by decide)

/-- C3: `patience` never decreases over a run; a validation check changes
it only on a significant improvement (`current < best *
improvement_threshold`; the computed error, a mean of zero-one losses, is
non-negative), in which case it becomes
`max patience (global_iteration * patience_increase)`; with
`patience = 100`, a significant improvement at iteration 40 leaves it at
`max 100 80 = 100`, one at iteration 60 sets it to `max 100 120 = 120`. -/
theorem C3_patience_monotone_and_update_rule :
    (∀ (c : MlpConfig) (val tst : ℕ → ℚ) (n : ℕ) (s : LoopState),
        s.patience ≤ (runEpochs c val tst n s).patience) ∧
    (∀ (val tst : ℕ → ℚ) (s : LoopState) (t : ℕ), 0 ≤ val t →
        (validationStep val tst s t).patience =
          if ltInfThresh (val t) s.best_validation_loss
          then max s.patience (t * patience_increase)
          else s.patience) ∧
    (validationStep (fun _ => 1/2) (fun _ => 0)
        { epoch := 1, global_iteration := 39, patience := 100,
          best_validation_loss := none, best_iteration := 0,
          test_score := 0, done_looping := false } 40).patience = 100 ∧
    (validationStep (fun _ => 1/2) (fun _ => 0)
        { epoch := 1, global_iteration := 59, patience := 100,
          best_validation_loss := none, best_iteration := 0,
          test_score := 0, done_looping := false } 60).patience = 120 := by
  refine ⟨runEpochs_patience_mono, ?_, by decide, by decide⟩
  intro val tst s t hval
  rw [validationStep_patience]
  cases hb : s.best_validation_loss with
  | none => simp [ltInf, ltInfThresh]
  | some v =>
    by_cases h2 : ltInfThresh (val t) (some v) = true
    · have h1 : ltInf (val t) (some v) = true := by
        simp only [ltInfThresh, improvement_threshold,
          decide_eq_true_eq] at h2
        simp only [ltInf, decide_eq_true_eq]
        linarith
      rw [h1, h2]
      simp
    · simp [h2]

/-- Witness for C3's update rule at a concrete non-negative error. -/
theorem C3_patience_update_witness :
    (validationStep (fun _ => (0 : ℚ)) (fun _ => 0) initState 5).patience =
      if ltInfThresh ((0 : ℚ)) initState.best_validation_loss
      then max initState.patience (5 * patience_increase)
      else initState.patience :=
  C3_patience_monotone_and_update_rule.2.1 (fun _ => 0) (fun _ => 0)
    initState 5 (le_refl 0)

/-- C4: `best_validation_loss` is updated by a validation check exactly
when the new error is strictly below it (source line 346), and it never
increases over the rest of a run. -/
theorem C4_best_validation_error_nonincreasing :
    (∀ (val tst : ℕ → ℚ) (s : LoopState) (t : ℕ),
        (validationStep val tst s t).best_validation_loss =
          if ltInf (val t) s.best_validation_loss then some (val t)
          else s.best_validation_loss) ∧
    (∀ (val tst : ℕ → ℚ) (s : LoopState) (t : ℕ),
        bestLE (validationStep val tst s t).best_validation_loss
          s.best_validation_loss) ∧
    (∀ (c : MlpConfig) (val tst : ℕ → ℚ) (n : ℕ) (s : LoopState),
        bestLE (runEpochs c val tst n s).best_validation_loss
          s.best_validation_loss) :=
  ⟨validationStep_best, validationStep_bestLE, runEpochs_bestLE⟩

/-- C5: a validation check recomputes the test score exactly when it
strictly improves `best_validation_loss` and at no other time; whenever
some improvement has happened, the returned `test_score` is the mean test
error measured at `best_iteration` (the in-place parameters at that exact
moment); and the test oracle never influences any control field of the
run — two runs differing only in the test errors agree on everything
except `test_score`. -/
theorem C5_test_evaluated_only_at_improvement :
    (∀ (val tst : ℕ → ℚ) (s : LoopState) (t : ℕ),
        (validationStep val tst s t).test_score =
          if ltInf (val t) s.best_validation_loss then tst t
          else s.test_score) ∧
    (∀ (c : MlpConfig) (val tst : ℕ → ℚ) (v : ℚ),
        (test_mlp_loop c val tst).best_validation_loss = some v →
          (test_mlp_loop c val tst).test_score =
            tst (test_mlp_loop c val tst).best_iteration) ∧
    (∀ (c : MlpConfig) (val tst tst' : ℕ → ℚ),
        eraseTestScore (test_mlp_loop c val tst) =
          eraseTestScore (test_mlp_loop c val tst')) := by
  refine ⟨validationStep_test_score, ?_, ?_⟩
  · intro c val tst v hv
    have hinv : TestInv tst (test_mlp_loop c val tst) :=
      runEpochs_TestInv c val tst c.num_epochs initState
        (fun h => absurd rfl h)
    exact hinv (by rw [hv]; exact Option.some_ne_none v)
  · intro c val tst tst'
    exact runEpochs_congr c val tst tst' c.num_epochs rfl

/-- Witness for C5 at a one-epoch, one-batch configuration whose single
validation check improves on `numpy.inf`. -/
theorem C5_test_score_witness :
    (test_mlp_loop ⟨1, 1, 1, 1, 1⟩ (fun _ => 0) (fun _ => 7)).test_score =
      (fun _ : ℕ => (7 : ℚ))
        (test_mlp_loop ⟨1, 1, 1, 1, 1⟩ (fun _ => 0)
          (fun _ => 7)).best_iteration :=
  C5_test_evaluated_only_at_improvement.2.1 ⟨1, 1, 1, 1, 1⟩
    (fun _ => 0) (fun _ => 7) 0 (by decide)

/-- C6: `validation_frequency = min num_train_batches (patience // 2)`
with the initial `patience = 100`, each `num_*_batches` is the floor of
split size over batch size; with `batch_size = 20` and a training split of
exactly 50000 samples, `num_train_batches = 2500` and
`validation_frequency = 50`; and the inner loop runs a validation check at
exactly the iterations `t` with `(t + 1) % validation_frequency = 0`. -/
theorem C6_validation_schedule :
    (∀ c : MlpConfig,
        validation_frequency c =
            min (num_train_batches c) (patience_init / 2) ∧
          num_train_batches c = c.train_size / c.batch_size ∧
          num_valid_batches c = c.valid_size / c.batch_size ∧
          num_test_batches c = c.test_size / c.batch_size) ∧
    (∀ ne vs ts : ℕ,
        num_train_batches ⟨ne, 20, 50000, vs, ts⟩ = 2500 ∧
          validation_frequency ⟨ne, 20, 50000, vs, ts⟩ = 50) ∧
    (∀ (c : MlpConfig) (t : ℕ),
        validationChecked c t = true ↔
          (t + 1) % validation_frequency c = 0) ∧
    (∀ (c : MlpConfig) (val tst : ℕ → ℚ) (epoch mb : ℕ) (s : LoopState),
        validationChecked c ((epoch - 1) * num_train_batches c + mb) =
            false →
          (innerStep c val tst epoch mb s).best_validation_loss =
              s.best_validation_loss ∧
            (innerStep c val tst epoch mb s).test_score = s.test_score ∧
            (innerStep c val tst epoch mb s).patience = s.patience) ∧
    (∀ (c : MlpConfig) (val tst : ℕ → ℚ) (epoch mb : ℕ) (s : LoopState),
        validationChecked c ((epoch - 1) * num_train_batches c + mb) =
            true →
          (innerStep c val tst epoch mb s).best_validation_loss =
              (validationStep val tst s
                ((epoch - 1) * num_train_batches c +
                  mb)).best_validation_loss ∧
            (innerStep c val tst epoch mb s).test_score =
              (validationStep val tst s
                ((epoch - 1) * num_train_batches c + mb)).test_score) := by
  refine ⟨fun c => ⟨rfl, rfl, rfl, rfl⟩,
    fun ne vs ts => ⟨by norm_num [num_train_batches],
      by norm_num [validation_frequency, num_train_batches, patience_init,
        Nat.min_def]⟩, ?_, ?_, ?_⟩
  · intro c t
    simp [validationChecked]
  · intro c val tst epoch mb s h
    unfold innerStep
    dsimp only
    have hni :
        ¬(validationChecked c ((epoch - 1) * num_train_batches c + mb)
            = true) := by
      rw [h]
      exact Bool.false_ne_true
    rw [if_neg hni]
    split
    · exact ⟨rfl, rfl, rfl⟩
    · exact ⟨rfl, rfl, rfl⟩
  · intro c val tst epoch mb s h
    unfold innerStep
    dsimp only
    rw [if_pos h]
    split
    · exact ⟨rfl, rfl⟩
    · exact ⟨rfl, rfl⟩

/-- Witness for C6: with `batch_size = 20` and 50000 training samples the
frequency is 50, so iteration 0 skips the check and iteration 49 runs
it. -/
theorem C6_validation_schedule_witness :
    ((innerStep ⟨1, 20, 50000, 10000, 10000⟩ (fun _ => 0) (fun _ => 0) 1 0
          initState).best_validation_loss =
        initState.best_validation_loss ∧
      (innerStep ⟨1, 20, 50000, 10000, 10000⟩ (fun _ => 0) (fun _ => 0) 1 0
          initState).test_score = initState.test_score ∧
      (innerStep ⟨1, 20, 50000, 10000, 10000⟩ (fun _ => 0) (fun _ => 0) 1 0
          initState).patience = initState.patience) ∧
    ((innerStep ⟨1, 20, 50000, 10000, 10000⟩ (fun _ => 0) (fun _ => 0) 1 49
          initState).best_validation_loss =
        (validationStep (fun _ => 0) (fun _ => 0) initState
          49).best_validation_loss ∧
      (innerStep ⟨1, 20, 50000, 10000, 10000⟩ (fun _ => 0) (fun _ => 0) 1 49
          initState).test_score =
        (validationStep (fun _ => 0) (fun _ => 0) initState 49).test_score) :=
  ⟨C6_validation_schedule.2.2.2.1 ⟨1, 20, 50000, 10000, 10000⟩
      (fun _ => 0) (fun _ => 0) 1 0 initState (by decide),
    C6_validation_schedule.2.2.2.2 ⟨1, 20, 50000, 10000, 10000⟩
      (fun _ => 0) (fun _ => 0) 1 49 initState (by decide)⟩

/-- C7: on a state whose `best_validation_loss` is still `numpy.inf`
(`none`), any computed error counts as a strict improvement, so the first
validation check always sets `best_validation_loss`, `best_iteration` and
`test_score`; and after any validation check `best_validation_loss` can
no longer be `numpy.inf`. -/
theorem C7_first_validation_check_always_improves :
    (∀ (val tst : ℕ → ℚ) (s : LoopState) (t : ℕ),
        s.best_validation_loss = none →
          (validationStep val tst s t).best_validation_loss =
              some (val t) ∧
            (validationStep val tst s t).best_iteration = t ∧
            (validationStep val tst s t).test_score = tst t) ∧
    (∀ (val tst : ℕ → ℚ) (s : LoopState) (t : ℕ),
        (validationStep val tst s t).best_validation_loss ≠ none) := by
  constructor
  · intro val tst s t h
    have hl : ltInf (val t) s.best_validation_loss = true := by
      rw [h]; rfl
    exact ⟨by rw [validationStep_best, if_pos hl],
      by rw [validationStep_best_iteration, if_pos hl],
      by rw [validationStep_test_score, if_pos hl]⟩
  · intro val tst s t h
    have h0 := validationStep_best_ne_none val tst s t h
    rw [validationStep_best, h0] at h
    simp [ltInf] at h

/-- Witness for C7 on the initial state. -/
theorem C7_first_check_witness :
    (validationStep (fun _ => (1 : ℚ)/4) (fun _ => (1 : ℚ)/8)
          initState 3).best_validation_loss = some ((1 : ℚ)/4) ∧
      (validationStep (fun _ => (1 : ℚ)/4) (fun _ => (1 : ℚ)/8)
          initState 3).best_iteration = 3 ∧
      (validationStep (fun _ => (1 : ℚ)/4) (fun _ => (1 : ℚ)/8)
          initState 3).test_score = (1 : ℚ)/8 :=
  C7_first_validation_check_always_improves.1 (fun _ => 1/4)
    (fun _ => 1/8) initState 3 rfl

/-- C8 counterexample: non-integer labels of matching dimension make
`errors` raise `NotImplementedError` (source line 93), which is a
distinct exception from the `TypeError` the claim asserts. -/
theorem C8_nonint_labels_not_a_type_error :
    errors [0] { ndim := 1, dtype := "float64", data := [0] } =
        ErrorsResult.notImplementedError ∧
      ErrorsResult.notImplementedError ≠ ErrorsResult.typeError := by
  exact ⟨rfl, by decide⟩

/-- C8 (amended): `errors` raises `TypeError` exactly on a dimension
mismatch with `y_prediction`; with matching dimension it returns the mean
zero-one loss for integer labels and raises `NotImplementedError` — an
explicit signal, not a silent coercion, but not a `TypeError` — for any
other label dtype. -/
theorem C8_errors_behaviour :
    (∀ (pred : List ℤ) (y : TensorVector), y.ndim ≠ y_prediction_ndim →
        errors pred y = ErrorsResult.typeError) ∧
    (∀ (pred : List ℤ) (y : TensorVector), y.ndim = y_prediction_ndim →
        dtypeStartsWithInt y.dtype = true →
        errors pred y = ErrorsResult.ok (zeroOneLossMean pred y.data)) ∧
    (∀ (pred : List ℤ) (y : TensorVector), y.ndim = y_prediction_ndim →
        dtypeStartsWithInt y.dtype = false →
        errors pred y = ErrorsResult.notImplementedError) := by
  refine ⟨?_, ?_, ?_⟩
  · intro pred y h
    unfold errors
    rw [if_pos h]
  · intro pred y h1 h2
    unfold errors
    rw [if_neg (fun hne => hne h1), if_pos h2]
  · intro pred y h1 h2
    unfold errors
    rw [if_neg (fun hne => hne h1),
      if_neg (by rw [h2]; exact Bool.false_ne_true)]

/-- Witness for C8 on concrete label tensors of each kind. -/
theorem C8_errors_witness :
    errors [0, 1] { ndim := 2, dtype := "int32", data := [0, 1] } =
        ErrorsResult.typeError ∧
      errors [0, 1] { ndim := 1, dtype := "int32", data := [0, 2] } =
        ErrorsResult.ok (zeroOneLossMean [0, 1] [0, 2]) ∧
      errors [0, 1] { ndim := 1, dtype := "float32", data := [0, 1] } =
        ErrorsResult.notImplementedError :=
  ⟨C8_errors_behaviour.1 [0, 1]
      { ndim := 2, dtype := "int32", data := [0, 1] } (by decide),
    C8_errors_behaviour.2.1 [0, 1]
      { ndim := 1, dtype := "int32", data := [0, 2] } rfl (by decide),
    C8_errors_behaviour.2.2 [0, 1]
      { ndim := 1, dtype := "float32", data := [0, 1] } rfl (by decide)⟩

/-- C9: `test_mlp` is deterministic — the weight-initialisation seed is
the fixed literal `mlp_random_seed = 1234` (source line 267) and every
quantity of the run is a function of the configuration and of the
dataset-determined error oracles, so two runs with identical arguments
return identical `(best_validation_loss, test_score)` pairs. -/
theorem C9_deterministic_given_seed_and_data (c c' : MlpConfig)
    (val val' tst tst' : ℕ → ℚ)
    (hc : c = c') (hval : val = val') (htst : tst = tst') :
    test_mlp_result c val tst = test_mlp_result c' val' tst' := by
  subst hc
  subst hval
  subst htst
  rfl

/-- Witness for C9 at a concrete configuration. -/
theorem C9_deterministic_witness :
    test_mlp_result ⟨1, 1, 1, 1, 1⟩ (fun _ => 0) (fun _ => 0) =
      test_mlp_result ⟨1, 1, 1, 1, 1⟩ (fun _ => 0) (fun _ => 0) :=
  C9_deterministic_given_seed_and_data ⟨1, 1, 1, 1, 1⟩ ⟨1, 1, 1, 1, 1⟩
    (fun _ => 0) (fun _ => 0) (fun _ => 0) (fun _ => 0) rfl rfl rfl

/-- C10: `load_data` truncates the validation and test splits to their
first 10000 samples no matter what `num_examples` is; only the training
split is truncated to `num_examples`; hence the validation and test
splits handed to `test_mlp` hold at most 10000 samples each. -/
theorem C10_load_data_truncates_valid_and_test
    (train_set valid_set test_set : RawSplit) (num_examples : ℕ) :
    (load_data train_set valid_set test_set num_examples).2.1 =
        { xs := valid_set.xs.take 10000, ys := valid_set.ys.take 10000 } ∧
      (load_data train_set valid_set test_set num_examples).2.2 =
        { xs := test_set.xs.take 10000, ys := test_set.ys.take 10000 } ∧
      (load_data train_set valid_set test_set num_examples).1 =
        { xs := train_set.xs.take num_examples,
          ys := train_set.ys.take num_examples } ∧
      (load_data train_set valid_set test_set
          num_examples).2.1.xs.length ≤ 10000 ∧
      (load_data train_set valid_set test_set
          num_examples).2.1.ys.length ≤ 10000 ∧
      (load_data train_set valid_set test_set
          num_examples).2.2.xs.length ≤ 10000 ∧
      (load_data train_set valid_set test_set
          num_examples).2.2.ys.length ≤ 10000 := by
  refine ⟨rfl, rfl, rfl, ?_, ?_, ?_, ?_⟩ <;>
    · simp only [load_data, shared_dataset, List.length_take]
      omega

end BackPropagation
